import Mathlib

/-!
Verification of the aggregation / projection engine of `app_financas4.py`
(family finance dashboard backed by Google Sheets).

The embedding models the dataframe produced by `get_transactions`:
gspread returns every cell as a string; `get_transactions` coerces
the date column with `pd.to_datetime(..., errors="coerce")` (invalid
cells become NaT, modelled as `none`), the amount column with
`pd.to_numeric(..., errors="coerce")` (invalid cells become NaN,
modelled as `none`), and `vezes_recorrencia` with
`to_numeric(...).fillna(0).astype(int)` (modelled as `Int`).
Text columns read from the sheet are plain strings (a blank sheet cell
is the empty string); a missing value produced at the dataframe level
(NaN in an object column) is modelled as `none`.

Amounts are modelled as rationals.
-/

/-- Calendar date (no time of day), as stored in the `Data` column. -/
structure Date where
  year : Int
  month : Int
  day : Int
deriving DecidableEq, Repr

/-- A year-month pair, the key produced by `strftime("%Y-%m")`. -/
abbrev YM := Int × Int

/-- The year-month of a date, i.e. `d.strftime("%Y-%m")`. -/
def Date.ym (d : Date) : YM := (d.year, d.month)

/-- Linear index of a year-month (months since year 0). -/
def ymIdx (p : YM) : Int := 12 * p.1 + (p.2 - 1)

/-- Year-month from its linear index. -/
def ymOfIdx (n : Int) : YM := (n / 12, n % 12 + 1)

/-- Add `k` months to a year-month, normalising (the month arithmetic of
`pd.DateOffset(months=k)` restricted to the `%Y-%m` key). -/
def ymAdd (p : YM) (k : Int) : YM := ymOfIdx (ymIdx p + k)

/-- Gregorian leap year test. -/
def isLeap (y : Int) : Bool :=
  y.emod 4 == 0 && (y.emod 100 != 0 || y.emod 400 == 0)

/-- Number of days of a month. -/
def daysInMonth (y m : Int) : Int :=
  if m == 2 then (if isLeap y then 29 else 28)
  else if m == 4 || m == 6 || m == 9 || m == 11 then 30
  else 31

/-- Date plus `k` calendar months, day clamped to the target month, which is
what `pd.DateOffset(months=k)` does to a timestamp. -/
def dateAddMonths (d : Date) (k : Int) : Date :=
  let p := ymAdd d.ym k
  ⟨p.1, p.2, min d.day (daysInMonth p.1 p.2)⟩

/-- Strict lexicographic order on dates (Python date comparison). -/
def dateLt (a b : Date) : Bool :=
  a.year < b.year ||
  (a.year == b.year && (a.month < b.month ||
    (a.month == b.month && a.day < b.day)))

/-- Reflexive lexicographic order on dates. -/
def dateLe (a b : Date) : Bool := dateLt a b || a == b

/-- State of the `Datas Parcelas Receita` cell as seen by the projection:
`emptyCell` is a falsy cell (blank or `None`), `badJson` is a non-blank cell
on which `json.loads` / `strptime` raise, `dates ds` is a cell holding a
JSON list of `%Y-%m-%d` dates that parses to `ds`. -/
inductive ParcelCell where
  | emptyCell
  | badJson
  | dates (ds : List Date)
deriving DecidableEq, Repr

/-- One row of the dataframe returned by `get_transactions` (identifier,
description and username columns are omitted: the aggregation functions under
verification never read them). -/
structure Tx where
  data : Option Date
  valor : Option Rat
  tipo : String
  categoria : Option String
  responsavel : Option String
  banco : Option String
  formaRecebimento : String
  datasParcelasReceita : ParcelCell
  recorrente : String
  vezesRecorrencia : Int
  status : String
deriving DecidableEq, Repr

/-- ASCII model of Python `str.lower()` (the compared cell values are
ASCII). -/
def strLower (s : String) : String := ⟨s.data.map Char.toLower⟩

/-- Pandas column sum with NaN skipped (`Series.sum()` over the
`Valor` column of a row selection). -/
def sumValor (l : List Tx) : Rat :=
  l.foldr (fun t acc => match t.valor with | some v => v + acc | none => acc) 0

/-- Month filter of `get_summary_current_month`: the row matches when
`Data.strftime("%Y-%m")` equals the current year-month; a NaT date renders
as NaN and never matches. -/
def inMonth (cur : YM) (t : Tx) : Bool :=
  match t.data with
  | some d => d.ym == cur
  | none => false

/-- Shallow embedding of `get_summary_current_month`: filter the rows of the
user to the current month, then sum `Valor` over income rows, paid expense
rows and unpaid expense rows (type and status compared lower-cased). -/
def getSummaryCurrentMonth (txs : List Tx) (cur : YM) : Rat × Rat × Rat :=
  if txs.isEmpty then (0, 0, 0)
  else
    let dfm := txs.filter (inMonth cur)
    ( sumValor (dfm.filter (fun t => strLower t.tipo == "receita")),
      sumValor (dfm.filter (fun t =>
        strLower t.tipo == "despesa" && strLower t.status == "pago")),
      sumValor (dfm.filter (fun t =>
        strLower t.tipo == "despesa" && strLower t.status == "a pagar")) )

/-- Row constructor for an expense as written by the entry form and read back
through the sheet (income-only text cells read back as blank strings). -/
def mkDespesa (d : Date) (v : Rat) (cat recFlag : String) (vezes : Int)
    (st : String) : Tx :=
  { data := some d, valor := some v, tipo := "despesa", categoria := some cat,
    responsavel := some "", banco := some "", formaRecebimento := "",
    datasParcelasReceita := .emptyCell, recorrente := recFlag,
    vezesRecorrencia := vezes, status := st }

/-- Row constructor for an income as written by the entry form and read back
through the sheet (expense-only cells read back blank / zero). -/
def mkReceita (d : Date) (v : Rat) (cat resp bank forma : String)
    (ps : ParcelCell) : Tx :=
  { data := some d, valor := some v, tipo := "receita", categoria := some cat,
    responsavel := some resp, banco := some bank, formaRecebimento := forma,
    datasParcelasReceita := ps, recorrente := "", vezesRecorrencia := 0,
    status := "" }

lemma sumValor_nil : sumValor [] = 0 := rfl

lemma sumValor_cons (t : Tx) (l : List Tx) :
    sumValor (t :: l) =
      (match t.valor with | some v => v + sumValor l | none => sumValor l) := by
  cases h : t.valor <;> simp [sumValor, h]

lemma filter_filter_and (p q : Tx → Bool) (txs : List Tx) :
    (txs.filter q).filter p = txs.filter (fun t => q t && p t) := by
  rw [List.filter_filter]
  exact List.filter_congr (fun a _ => Bool.and_comm _ _)

lemma sumValor_of_all_not (p : Tx → Bool) (txs : List Tx)
    (h : ∀ t ∈ txs, p t = false) : sumValor (txs.filter p) = 0 := by
  have : txs.filter p = [] := List.filter_eq_nil_iff.mpr (by simp_all)
  rw [this, sumValor_nil]

/-- C4. `get_summary_current_month` returns the triple of the sum of `Valor`
over income rows of the target month, over paid expense rows of the month and
over unpaid expense rows of the month, and returns `(0, 0, 0)` when the input
is empty or no row falls in the month. -/
theorem getSummary_eq_filtered_sums (txs : List Tx) (cur : YM) :
    getSummaryCurrentMonth txs cur =
      ( sumValor (txs.filter (fun t =>
          inMonth cur t && strLower t.tipo == "receita")),
        sumValor (txs.filter (fun t => inMonth cur t &&
          (strLower t.tipo == "despesa" && strLower t.status == "pago"))),
        sumValor (txs.filter (fun t => inMonth cur t &&
          (strLower t.tipo == "despesa" && strLower t.status == "a pagar"))) )
      ∧ ((∀ t ∈ txs, inMonth cur t = false) →
          getSummaryCurrentMonth txs cur = (0, 0, 0)) := by
  constructor
  · unfold getSummaryCurrentMonth
    by_cases h : txs.isEmpty
    · have : txs = [] := List.isEmpty_iff.mp h
      subst this
      simp [sumValor_nil]
    · simp only [h, Bool.false_eq_true, if_false]
      rw [filter_filter_and, filter_filter_and, filter_filter_and]
  · intro hall
    unfold getSummaryCurrentMonth
    by_cases h : txs.isEmpty
    · simp [h]
    · simp only [h, Bool.false_eq_true, if_false]
      have hnil : txs.filter (inMonth cur) = [] :=
        List.filter_eq_nil_iff.mpr (by simp_all)
      rw [hnil]
      simp [sumValor_nil, List.filter_nil]

/-- Witness for C4: Scenario B of the spec — a paid 200 expense and an unpaid
50 expense in 2024-01 give the summary `(0, 200, 50)` for 2024-01. -/
theorem getSummary_eq_filtered_sums_witness :
    getSummaryCurrentMonth
        [mkDespesa ⟨2024,1,5⟩ 200 "Moradia" "Não" 0 "Pago",
         mkDespesa ⟨2024,1,10⟩ 50 "Lazer" "Não" 0 "A Pagar"] (2024, 1) =
      (0, 200, 50) := by
  rw [(getSummary_eq_filtered_sums
    [mkDespesa ⟨2024,1,5⟩ 200 "Moradia" "Não" 0 "Pago",
     mkDespesa ⟨2024,1,10⟩ 50 "Lazer" "Não" 0 "A Pagar"] (2024, 1)).1]
  norm_num +decide [List.filter_cons, sumValor_cons, sumValor]

/-! Goal progress (`render_overview_dashboard` line 681-682 and
`render_planning_section` line 1055-1056). -/

/-- Rounding of a rational to the nearest integer with ties to even, the
rounding of numpy behind `Series.round`. -/
def roundHalfEven (q : Rat) : Int :=
  let f := ⌊q⌋
  let r := q - (f : Rat)
  if r < 1/2 then f
  else if 1/2 < r then f + 1
  else if f.emod 2 == 0 then f else f + 1

/-- Rounding to two decimal places, `Series.round(2)`. -/
def round2 (q : Rat) : Rat := (roundHalfEven (q * 100) : Rat) / 100

/-- Pandas `Series.clip(upper=u)` on a single value. -/
def clipUpper (u x : Rat) : Rat := if u < x then u else x

/-- Goal progress as computed by the dashboard and the planning section:
`(Valor Atual / Valor Meta * 100).round(2)` followed by `.clip(upper=100)`. -/
def goalProgressPercent (valorAtual valorMeta : Rat) : Rat :=
  clipUpper 100 (round2 (valorAtual / valorMeta * 100))

/-- C7. For a positive target amount the displayed goal progress equals
`min(100, round(current / target * 100, 2))`, hence is clamped to at
most 100 even when the current amount exceeds the target. -/
theorem goalProgress_clamped (valorAtual valorMeta : Rat)
    (h : 0 < valorMeta) :
    goalProgressPercent valorAtual valorMeta =
      min 100 (round2 (valorAtual / valorMeta * 100)) ∧
    goalProgressPercent valorAtual valorMeta ≤ 100 := by
  have heq : goalProgressPercent valorAtual valorMeta =
      min 100 (round2 (valorAtual / valorMeta * 100)) := by
    unfold goalProgressPercent clipUpper
    rw [min_def]
    split_ifs with h1 h2 h2 <;> first | rfl | linarith
  exact ⟨heq, heq ▸ min_le_left _ _⟩

/-- Witness for C7: a goal with target 100 and current amount 150 shows
progress 100, not 150. -/
theorem goalProgress_clamped_witness :
    (0 : Rat) < 100 ∧ goalProgressPercent 150 100 = 100 := by
  refine ⟨by norm_num, ?_⟩
  rw [(goalProgress_clamped 150 100 (by norm_num)).1]
  norm_num [round2, roundHalfEven]

/-! Identifier assignment (`add_transaction` lines 109-114, `add_goal`
lines 296-301, deletion lines 174-214 / 417-444). -/

/-- One user action against a worksheet: create a record (the id is chosen
by the code) or delete the record with a given id. -/
inductive StoreOp where
  | create
  | delete (id : Int)
deriving DecidableEq, Repr

/-- `df["id"].max()` over a non-empty id column (0 as a junk value for the
empty sheet, on which `add_transaction` / `add_goal` never call it). -/
def maxId : List Int → Int
  | [] => 0
  | x :: xs => xs.foldl max x

/-- Identifier generation of `add_transaction` / `add_goal`: 1 when the
sheet is empty, otherwise the maximal existing id plus one. -/
def nextId (ids : List Int) : Int :=
  match ids with
  | [] => 1
  | x :: xs => maxId (x :: xs) + 1

/-- `delete_transaction` / `delete_goal`: remove the first row whose id
matches. -/
def deleteId (i : Int) : List Int → List Int
  | [] => []
  | x :: xs => if x == i then xs else x :: deleteId i xs

/-- Effect of one operation on the stored id column. -/
def applyOp (s : List Int) : StoreOp → List Int
  | .create => s ++ [nextId s]
  | .delete i => deleteId i s

/-- The id column after a sequence of operations on an initially empty
sheet. -/
def runOps (ops : List StoreOp) : List Int := ops.foldl applyOp []

/-- The ids assigned by the create operations of a run, in order. -/
def assignsOf (ops : List StoreOp) : List Int :=
  (ops.foldl (fun p op =>
      match op with
      | .create => (applyOp p.1 .create, p.2 ++ [nextId p.1])
      | .delete i => (applyOp p.1 (.delete i), p.2)) ([], [])).2

lemma foldl_max_le_init (xs : List Int) (a : Int) : a ≤ xs.foldl max a := by
  induction xs generalizing a with
  | nil => exact le_refl a
  | cons x xs ih => exact le_trans (le_max_left a x) (ih (max a x))

lemma mem_le_foldl_max (xs : List Int) (a x : Int) (hx : x ∈ xs) :
    x ≤ xs.foldl max a := by
  induction xs generalizing a with
  | nil => cases hx
  | cons y ys ih =>
    rcases List.mem_cons.mp hx with h | h
    · subst h
      exact le_trans (le_max_right a x) (foldl_max_le_init ys (max a x))
    · exact ih (max a y) h

lemma mem_le_maxId (s : List Int) (x : Int) (hx : x ∈ s) : x ≤ maxId s := by
  cases s with
  | nil => cases hx
  | cons y ys =>
    rcases List.mem_cons.mp hx with h | h
    · subst h
      exact foldl_max_le_init ys x
    · exact mem_le_foldl_max ys y x h

lemma nextId_not_mem (s : List Int) : nextId s ∉ s := by
  cases s with
  | nil => simp
  | cons y ys =>
    intro hmem
    have := mem_le_maxId (y :: ys) _ hmem
    simp only [nextId] at this
    omega

lemma mem_deleteId (i x : Int) (s : List Int) (hx : x ∈ deleteId i s) :
    x ∈ s := by
  induction s with
  | nil => cases hx
  | cons y ys ih =>
    by_cases h : y == i
    · simp only [deleteId, h, if_true] at hx
      exact List.mem_cons_of_mem y hx
    · simp only [deleteId, h, if_false] at hx
      rcases List.mem_cons.mp hx with h1 | h1
      · exact h1 ▸ List.mem_cons_self y ys
      · exact List.mem_cons_of_mem y (ih h1)

lemma runOps_all_pos (ops : List StoreOp) : ∀ x ∈ runOps ops, 1 ≤ x := by
  have key : ∀ (ops : List StoreOp) (s : List Int), (∀ x ∈ s, 1 ≤ x) →
      ∀ x ∈ ops.foldl applyOp s, 1 ≤ x := by
    intro ops
    induction ops with
    | nil => intro s hs x hx; exact hs x hx
    | cons op rest ih =>
      intro s hs x hx
      refine ih (applyOp s op) ?_ x hx
      intro y hy
      cases op with
      | create =>
        simp only [applyOp] at hy
        rcases List.mem_append.mp hy with h | h
        · exact hs y h
        · have : y = nextId s := List.mem_singleton.mp h
          subst this
          cases s with
          | nil => simp [nextId]
          | cons z zs =>
            have hz : 1 ≤ z := hs z (List.mem_cons_self z zs)
            have := foldl_max_le_init zs z
            simp only [nextId, maxId]
            omega
      | delete i => exact hs y (mem_deleteId i y s hy)
  intro x hx
  exact key ops [] (by simp) x hx

/-- C8 (amended). On every store reachable by create / delete operations,
the id assigned by a create is `maxId + 1` (1 on an empty store), is
positive and differs from every id currently stored — but nothing prevents
reuse of a previously deleted id (see the counterexample). -/
theorem nextId_max_plus_one_fresh (ops : List StoreOp) :
    (runOps ops = [] → nextId (runOps ops) = 1) ∧
    (runOps ops ≠ [] → nextId (runOps ops) = maxId (runOps ops) + 1) ∧
    nextId (runOps ops) ∉ runOps ops ∧ 1 ≤ nextId (runOps ops) := by
  refine ⟨?_, ?_, nextId_not_mem _, ?_⟩
  · intro h; rw [h]; rfl
  · intro h
    cases hs : runOps ops with
    | nil => exact absurd hs h
    | cons y ys => rfl
  · cases hs : runOps ops with
    | nil => simp [nextId]
    | cons y ys =>
      have hy : 1 ≤ y := runOps_all_pos ops y (hs ▸ List.mem_cons_self y ys)
      have := foldl_max_le_init ys y
      simp only [nextId, maxId]
      omega

/-- Counterexample for C8: create, create, delete id 2, create — the last
create reassigns id 2, which had been assigned before and deleted, so ids
are reused after deletion. -/
theorem nextId_reuse_after_delete_cex :
    assignsOf [.create, .create, .delete 2, .create] = [1, 2, 2] ∧
    runOps [.create, .create, .delete 2] = [1] := by
  constructor <;> rfl

/-- Witness for C8 amended theorem: after two creates the store is `[1, 2]`
and the next id is the maximum plus one, 3, which is fresh. -/
theorem nextId_max_plus_one_fresh_witness :
    runOps [StoreOp.create, StoreOp.create] ≠ [] ∧
    nextId (runOps [StoreOp.create, StoreOp.create]) =
      maxId (runOps [StoreOp.create, StoreOp.create]) + 1 ∧
    nextId (runOps [StoreOp.create, StoreOp.create]) ∉
      runOps [StoreOp.create, StoreOp.create] := by
  refine ⟨by decide, (nextId_max_plus_one_fresh _).2.1 (by decide),
    (nextId_max_plus_one_fresh _).2.2.1⟩

/-! Goal mutations (`update_goal_progress` lines 343-375,
`mark_goal_as_completed` lines 377-415). Both scan the raw sheet rows and
parse cells inside a try-block. The row index `row_index_in_sheet = i + 2`
is assigned BEFORE the `float(...)` parse of the amount cell, so a row
matching id and username whose amount cell fails to parse leaves the index
set when the `ValueError` branch continues the loop: a later matching row
overwrites the index (and, if it parses, is the one updated), while if no
later row matches the function falls through to the update with the
initial amount 0.0 and still returns True. Rows whose id cell fails
`int(...)` raise before the index assignment and are skipped cleanly. -/

/-- One raw row of the `goals` worksheet, in the column order written by
`add_goal`. Cells parsed by the mutation functions are modelled by the
parse result: `none` when `int(...)` / `float(...)` would raise. -/
structure GoalRow where
  idCell : Option Int
  username : String
  descricao : String
  valorMeta : Option Rat
  categoria : String
  dataLimite : String
  valorAtual : Option Rat
  status : String
deriving DecidableEq, Repr

/-- Shallow embedding of `mark_goal_as_completed` with the sticky row
index: the first matching row whose valor_meta parses gets status
"Concluída" and valor_atual set to that valor_meta; a matching row whose
valor_meta cell fails `float(...)` is passed over while the scan runs, but
if no later row matches it is the one updated — status "Concluída" and
valor_atual the initial 0.0 — and the call still reports success. -/
def markGoalAsCompleted (goalId : Int) (user : String) :
    List GoalRow → List GoalRow × Bool
  | [] => ([], false)
  | r :: rs =>
    if r.idCell == some goalId && r.username == user then
      match r.valorMeta with
      | some meta =>
          ({ r with status := "Concluída", valorAtual := some meta } :: rs,
           true)
      | none =>
          let p := markGoalAsCompleted goalId user rs
          if p.2 then (r :: p.1, true)
          else ({ r with status := "Concluída", valorAtual := some 0 } :: rs,
            true)
    else
      let p := markGoalAsCompleted goalId user rs
      (r :: p.1, p.2)

/-- Shallow embedding of `update_goal_progress` with the sticky row index:
the first matching row whose valor_atual parses gets valor_atual
overwritten by the old value plus `amount`; a matching row whose
valor_atual cell fails `float(...)` is passed over while the scan runs,
but if no later row matches it is the one updated — valor_atual becomes
the initial 0.0 plus `amount` — and the call still reports success. No
other cell is touched and no clamping or status check is performed. -/
def updateGoalProgress (goalId : Int) (user : String) (amount : Rat) :
    List GoalRow → List GoalRow × Bool
  | [] => ([], false)
  | r :: rs =>
    if r.idCell == some goalId && r.username == user then
      match r.valorAtual with
      | some cur =>
          ({ r with valorAtual := some (cur + amount) } :: rs, true)
      | none =>
          let p := updateGoalProgress goalId user amount rs
          if p.2 then (r :: p.1, true)
          else ({ r with valorAtual := some (0 + amount) } :: rs, true)
    else
      let p := updateGoalProgress goalId user amount rs
      (r :: p.1, p.2)

/-- C9 (amended). Whenever `mark_goal_as_completed` succeeds, the resulting
sheet contains the matched goal with status "Concluída"; its valor_atual
equals its valor_meta whenever that cell parsed, but when every matching
row has an unparseable valor_meta cell the sticky row index makes the
operation update the last matching row with the initial 0.0 instead, so
Completed implies current = target holds after the operation exactly for
goals whose target cell parses. -/
theorem markGoalAsCompleted_sets_amounts (goalId : Int) (user : String)
    (rows : List GoalRow)
    (h : (markGoalAsCompleted goalId user rows).2 = true) :
    ∃ r ∈ (markGoalAsCompleted goalId user rows).1,
      r.idCell = some goalId ∧ r.username = user ∧
      r.status = "Concluída" ∧
      ((∃ m, r.valorMeta = some m ∧ r.valorAtual = some m) ∨
        (r.valorMeta = none ∧ r.valorAtual = some 0)) := by
  induction rows with
  | nil => simp [markGoalAsCompleted] at h
  | cons r rs ih =>
    by_cases hm : r.idCell == some goalId && r.username == user
    · rcases hmeta : r.valorMeta with _ | meta
      · by_cases hp : (markGoalAsCompleted goalId user rs).2 = true
        · simp only [markGoalAsCompleted, hm, if_true, hmeta, hp] at h ⊢
          obtain ⟨r2, hr2, hprops⟩ := ih hp
          exact ⟨r2, List.mem_cons_of_mem r hr2, hprops⟩
        · rw [Bool.not_eq_true] at hp
          simp only [markGoalAsCompleted, hm, if_true, hmeta, hp,
            Bool.false_eq_true, if_false]
          refine ⟨_, List.mem_cons_self _ _, ?_, ?_, rfl,
            Or.inr ⟨rfl, rfl⟩⟩
          · have := (Bool.and_eq_true _ _).mp hm
            exact eq_of_beq this.1
          · have := (Bool.and_eq_true _ _).mp hm
            exact eq_of_beq this.2
      · simp only [markGoalAsCompleted, hm, if_true, hmeta]
        refine ⟨_, List.mem_cons_self _ _, ?_, ?_, rfl,
          Or.inl ⟨meta, rfl, rfl⟩⟩
        · have := (Bool.and_eq_true _ _).mp hm
          exact eq_of_beq this.1
        · have := (Bool.and_eq_true _ _).mp hm
          exact eq_of_beq this.2
    · simp only [markGoalAsCompleted, hm, if_false] at h ⊢
      obtain ⟨r2, hr2, hprops⟩ := ih h
      exact ⟨r2, List.mem_cons_of_mem r hr2, hprops⟩

/-- Goal row with an unparseable valor_meta cell, used by the C9
counterexample. -/
def goalBadMeta : GoalRow :=
  { idCell := some 7, username := "ana", descricao := "Moto",
    valorMeta := none, categoria := "Carro", dataLimite := "2025-12-31",
    valorAtual := some 5, status := "Em Progresso" }

/-- The row `goalBadMeta` as written back by the fall-through update. -/
def goalBadMetaDone : GoalRow :=
  { goalBadMeta with status := "Concluída", valorAtual := some 0 }

/-- Counterexample for C9: completing a matching goal whose valor_meta cell
fails to parse still succeeds, writing status "Concluída" and valor_atual
0.0 — the current amount is not set equal to the target amount, so the
Completed-implies-current-equals-target relation does not hold for that
goal immediately after the operation. -/
theorem markGoalAsCompleted_bad_meta_cex :
    markGoalAsCompleted 7 "ana" [goalBadMeta] = ([goalBadMetaDone], true) ∧
    goalBadMetaDone.status = "Concluída" ∧
    goalBadMetaDone.valorAtual ≠ goalBadMetaDone.valorMeta := by
  refine ⟨rfl, rfl, ?_⟩
  simp [goalBadMetaDone, goalBadMeta]

/-- C10. Whenever `update_goal_progress` succeeds, some row of the input
matched the id and username, and the output contains that row with
valor_atual overwritten by exactly the amount the code read for it — the
parsed valor_atual, or the initial 0.0 when that parse raises — plus
`amount`: the addition is unconditional, with no clamping at the target, no
sign check and no status guard (status, valor_meta and every other cell
are untouched), so the stored amount can exceed the target or become
negative and a Completed goal can be modified. -/
theorem updateGoalProgress_unconditional_add (goalId : Int) (user : String)
    (amount : Rat) (rows : List GoalRow)
    (h : (updateGoalProgress goalId user amount rows).2 = true) :
    ∃ r ∈ rows, r.idCell = some goalId ∧ r.username = user ∧
      { r with valorAtual := some (r.valorAtual.getD 0 + amount) } ∈
        (updateGoalProgress goalId user amount rows).1 := by
  induction rows with
  | nil => simp [updateGoalProgress] at h
  | cons r rs ih =>
    by_cases hm : r.idCell == some goalId && r.username == user
    · rcases hcur : r.valorAtual with _ | cur
      · by_cases hp : (updateGoalProgress goalId user amount rs).2 = true
        · simp only [updateGoalProgress, hm, if_true, hcur, hp] at h ⊢
          obtain ⟨r2, hr2, h1, h2, h3⟩ := ih hp
          exact ⟨r2, List.mem_cons_of_mem r hr2, h1, h2,
            List.mem_cons_of_mem _ h3⟩
        · rw [Bool.not_eq_true] at hp
          simp only [updateGoalProgress, hm, if_true, hcur, hp,
            Bool.false_eq_true, if_false]
          refine ⟨r, List.mem_cons_self r rs, ?_, ?_, ?_⟩
          · have := (Bool.and_eq_true _ _).mp hm
            exact eq_of_beq this.1
          · have := (Bool.and_eq_true _ _).mp hm
            exact eq_of_beq this.2
          · rw [show r.valorAtual.getD 0 = 0 from by rw [hcur]; rfl]
            exact List.mem_cons_self _ _
      · simp only [updateGoalProgress, hm, if_true, hcur]
        refine ⟨r, List.mem_cons_self r rs, ?_, ?_, ?_⟩
        · have := (Bool.and_eq_true _ _).mp hm
          exact eq_of_beq this.1
        · have := (Bool.and_eq_true _ _).mp hm
          exact eq_of_beq this.2
        · rw [show r.valorAtual.getD 0 = cur from by rw [hcur]; rfl]
          exact List.mem_cons_self _ _
    · simp only [updateGoalProgress, hm, if_false] at h ⊢
      obtain ⟨r2, hr2, h1, h2, h3⟩ := ih h
      exact ⟨r2, List.mem_cons_of_mem r hr2, h1, h2,
        List.mem_cons_of_mem _ h3⟩

/-- Witness for C9 amended theorem: completing goal 1 of user "ana" (target
cell parses to 5000) succeeds and yields a row with status "Concluída" and
valor_atual equal to valor_meta. -/
theorem markGoalAsCompleted_sets_amounts_witness :
    (markGoalAsCompleted 1 "ana"
      [{ idCell := some 1, username := "ana", descricao := "Carro",
         valorMeta := some 5000, categoria := "Carro",
         dataLimite := "2025-12-31", valorAtual := some 1200,
         status := "Em Progresso" }]).2 = true ∧
    ∃ r ∈ (markGoalAsCompleted 1 "ana"
      [{ idCell := some 1, username := "ana", descricao := "Carro",
         valorMeta := some 5000, categoria := "Carro",
         dataLimite := "2025-12-31", valorAtual := some 1200,
         status := "Em Progresso" }]).1,
      r.idCell = some 1 ∧ r.username = "ana" ∧
      r.status = "Concluída" ∧
      ((∃ m, r.valorMeta = some m ∧ r.valorAtual = some m) ∨
        (r.valorMeta = none ∧ r.valorAtual = some 0)) :=
  ⟨rfl, markGoalAsCompleted_sets_amounts 1 "ana" _ rfl⟩

/-- Completed goal row used by the C10 witness: target 100, current 100. -/
def goalCasa : GoalRow :=
  { idCell := some 2, username := "ana", descricao := "Casa",
    valorMeta := some 100, categoria := "Casa",
    dataLimite := "2025-12-31", valorAtual := some 100,
    status := "Concluída" }

/-- Witness for C10: adding 50 to a Completed goal whose current and target
amounts are both 100 succeeds and stores 150, exceeding the target and
breaking the Completed-implies-current-equals-target relation. -/
theorem updateGoalProgress_unconditional_add_witness :
    (updateGoalProgress 2 "ana" 50 [goalCasa]).2 = true ∧
    (∃ r ∈ [goalCasa],
      r.idCell = some 2 ∧ r.username = "ana" ∧
        { r with valorAtual := some (r.valorAtual.getD 0 + 50) } ∈
          (updateGoalProgress 2 "ana" 50 [goalCasa]).1) ∧
    (updateGoalProgress 2 "ana" 50 [goalCasa]).1 =
      [{ goalCasa with valorAtual := some 150 }] :=
  ⟨rfl, updateGoalProgress_unconditional_add 2 "ana" 50 _ rfl,
   by norm_num +decide [updateGoalProgress, goalCasa]⟩
/-! Category breakdowns (`render_detailed_analysis_section` lines 909-954):
`groupby(key)["Valor"].sum().sort_values(ascending=False)` over a row
selection. `groupby` drops rows whose key is missing (NaN) but keeps the
empty string as an ordinary key; the sum of a group skips NaN amounts; the
quicksort of `sort_values` yields some descending arrangement of the
groups. -/

/-- Accumulate one row into the running group sums (a NaN amount
contributes nothing). -/
def addToGroup (k : String) (v : Option Rat) :
    List (String × Rat) → List (String × Rat)
  | [] => [(k, v.getD 0)]
  | g :: gs => if g.1 == k then (g.1, g.2 + v.getD 0) :: gs
               else g :: addToGroup k v gs

/-- `groupby(key)["Valor"].sum()`: per-key sums of the rows whose key is
present, rows with a missing key dropped. -/
def groupSumBy (keyOf : Tx → Option String) (rows : List Tx) :
    List (String × Rat) :=
  rows.foldl (fun gs t =>
    match keyOf t with
    | some k => addToGroup k t.valor gs
    | none => gs) []

/-- Descending-by-total comparison used by `sort_values(ascending=False)`. -/
def descByVal (a b : String × Rat) : Prop := b.2 ≤ a.2

instance : DecidableRel descByVal :=
  fun a b => inferInstanceAs (Decidable (b.2 ≤ a.2))

instance : IsTotal (String × Rat) descByVal := ⟨fun a b => le_total b.2 a.2⟩

instance : IsTrans (String × Rat) descByVal :=
  ⟨fun _ _ _ h1 h2 => le_trans h2 h1⟩

/-- A breakdown: group, sum, then sort descending by total. -/
def categoryBreakdown (keyOf : Tx → Option String) (rows : List Tx) :
    List (String × Rat) :=
  List.insertionSort descByVal (groupSumBy keyOf rows)

/-- Paid-expense-by-category breakdown (line 909-912). -/
def gastosPorCategoria (txs : List Tx) : List (String × Rat) :=
  categoryBreakdown (fun t => t.categoria)
    (txs.filter (fun t => t.tipo == "despesa" && t.status == "Pago"))

/-- Income-by-payer breakdown (line 926-931). -/
def receitasPorResponsavel (txs : List Tx) : List (String × Rat) :=
  categoryBreakdown (fun t => t.responsavel)
    (txs.filter (fun t => t.tipo == "receita"))

/-- Income-by-bank breakdown (line 926 and 944). -/
def receitasPorBanco (txs : List Tx) : List (String × Rat) :=
  categoryBreakdown (fun t => t.banco)
    (txs.filter (fun t => t.tipo == "receita"))

lemma mem_keys_addToGroup (k k1 : String) (v : Option Rat)
    (gs : List (String × Rat))
    (h : k1 ∈ (addToGroup k v gs).map Prod.fst) :
    k1 = k ∨ k1 ∈ gs.map Prod.fst := by
  induction gs with
  | nil => simpa [addToGroup] using h
  | cons g gs ih =>
    by_cases hg : g.1 == k
    · simp only [addToGroup, hg, if_true, List.map_cons] at h
      rcases List.mem_cons.mp h with h1 | h1
      · right; simp [h1]
      · right; exact List.mem_cons_of_mem _ h1
    · simp only [addToGroup, hg, if_false, List.map_cons] at h
      rcases List.mem_cons.mp h with h1 | h1
      · right; simp [h1]
      · rcases ih h1 with h2 | h2
        · exact Or.inl h2
        · exact Or.inr (List.mem_cons_of_mem _ h2)

lemma mem_keys_groupSumBy (keyOf : Tx → Option String) (rows : List Tx)
    (k1 : String) (h : k1 ∈ (groupSumBy keyOf rows).map Prod.fst) :
    ∃ t ∈ rows, keyOf t = some k1 := by
  have key : ∀ (rows : List Tx) (acc : List (String × Rat)),
      k1 ∈ (rows.foldl (fun gs t =>
        match keyOf t with
        | some k => addToGroup k t.valor gs
        | none => gs) acc).map Prod.fst →
      k1 ∈ acc.map Prod.fst ∨ ∃ t ∈ rows, keyOf t = some k1 := by
    intro rows
    induction rows with
    | nil => intro acc h; exact Or.inl h
    | cons t ts ih =>
      intro acc h
      simp only [List.foldl_cons] at h
      rcases hk : keyOf t with _ | k
      · rw [hk] at h
        rcases ih acc h with h1 | ⟨t2, ht2, hkt2⟩
        · exact Or.inl h1
        · exact Or.inr ⟨t2, List.mem_cons_of_mem t ht2, hkt2⟩
      · rw [hk] at h
        rcases ih (addToGroup k t.valor acc) h with h1 | ⟨t2, ht2, hkt2⟩
        · rcases mem_keys_addToGroup k k1 t.valor acc h1 with h2 | h2
          · exact Or.inr ⟨t, List.mem_cons_self t ts, by rw [hk, h2]⟩
          · exact Or.inl h2
        · exact Or.inr ⟨t2, List.mem_cons_of_mem t ht2, hkt2⟩
  rcases key rows [] h with h1 | h1
  · simp at h1
  · exact h1

lemma breakdown_sorted (keyOf : Tx → Option String) (rows : List Tx) :
    (categoryBreakdown keyOf rows).Sorted descByVal :=
  List.sorted_insertionSort descByVal _

lemma breakdown_keys (keyOf : Tx → Option String) (rows : List Tx)
    (p : String × Rat) (hp : p ∈ categoryBreakdown keyOf rows) :
    ∃ t ∈ rows, keyOf t = some p.1 := by
  have hmem : p ∈ groupSumBy keyOf rows :=
    (List.perm_insertionSort descByVal (groupSumBy keyOf rows)).mem_iff.mp hp
  exact mem_keys_groupSumBy keyOf rows p.1
    (List.mem_map.mpr ⟨p, hmem, rfl⟩)

/-- C6 (amended). Every category / payer / bank breakdown is sorted in
descending order of the group total, and every group key originates from a
row whose key cell is present — rows with a missing (NaN) key are dropped.
The empty string is NOT excluded: it is kept as an ordinary group key (see
the counterexample). -/
theorem breakdowns_sorted_keys_amended (txs : List Tx) :
    (gastosPorCategoria txs).Sorted descByVal ∧
    (receitasPorResponsavel txs).Sorted descByVal ∧
    (receitasPorBanco txs).Sorted descByVal ∧
    (∀ p ∈ gastosPorCategoria txs, ∃ t ∈ txs, t.categoria = some p.1) ∧
    (∀ p ∈ receitasPorResponsavel txs, ∃ t ∈ txs, t.responsavel = some p.1) ∧
    (∀ p ∈ receitasPorBanco txs, ∃ t ∈ txs, t.banco = some p.1) := by
  refine ⟨breakdown_sorted _ _, breakdown_sorted _ _, breakdown_sorted _ _,
    ?_, ?_, ?_⟩
  · intro p hp
    obtain ⟨t, ht, hkt⟩ := breakdown_keys _ _ p hp
    exact ⟨t, (List.mem_filter.mp ht).1, hkt⟩
  · intro p hp
    obtain ⟨t, ht, hkt⟩ := breakdown_keys _ _ p hp
    exact ⟨t, (List.mem_filter.mp ht).1, hkt⟩
  · intro p hp
    obtain ⟨t, ht, hkt⟩ := breakdown_keys _ _ p hp
    exact ⟨t, (List.mem_filter.mp ht).1, hkt⟩

/-- Counterexample for C6: an income row whose payer cell holds the empty
string is not excluded from the income-by-payer breakdown — it is grouped
under the empty-string key, contradicting the claim that rows with a null
or empty grouping key are excluded. -/
theorem breakdown_keeps_empty_key_cex :
    receitasPorResponsavel
        [mkReceita ⟨2024,3,5⟩ 80 "Salário" "" "Nubank" "Parcela Única"
          .emptyCell] =
      [("", 80)] := by
  rfl

/-- Witness for C6: on two paid expenses of 200 (Moradia) and 50 (Lazer)
the category breakdown is sorted descending and both keys come from rows. -/
theorem breakdowns_sorted_keys_amended_witness :
    (gastosPorCategoria
      [mkDespesa ⟨2024,1,5⟩ 200 "Moradia" "Não" 0 "Pago",
       mkDespesa ⟨2024,1,10⟩ 50 "Lazer" "Não" 0 "Pago"]).Sorted descByVal ∧
    gastosPorCategoria
        [mkDespesa ⟨2024,1,5⟩ 200 "Moradia" "Não" 0 "Pago",
         mkDespesa ⟨2024,1,10⟩ 50 "Lazer" "Não" 0 "Pago"] =
      [("Moradia", 200), ("Lazer", 50)] :=
  ⟨(breakdowns_sorted_keys_amended
      [mkDespesa ⟨2024,1,5⟩ 200 "Moradia" "Não" 0 "Pago",
       mkDespesa ⟨2024,1,10⟩ 50 "Lazer" "Não" 0 "Pago"]).1,
   by rfl⟩

/-! Monthly trend (`render_overview_dashboard` lines 626-675). The window
filter compares timestamps: `datetime.now()` carries a time of day while
transaction dates parse to midnight, so a timestamp is a date plus seconds
into the day. -/

/-- A timestamp: date and seconds into the day. -/
structure DT where
  d : Date
  tod : Int
deriving DecidableEq, Repr

/-- Lexicographic timestamp comparison. -/
def dtLe (a b : DT) : Bool :=
  dateLt a.d b.d || (a.d == b.d && a.tod ≤ b.tod)

/-- A parsed transaction date as a timestamp (midnight). -/
def dtOfDate (d : Date) : DT := ⟨d, 0⟩

/-- `x - pd.DateOffset(months=k)`: month arithmetic with day clamping,
keeping the time of day. -/
def dtSubMonths (x : DT) (k : Int) : DT := ⟨dateAddMonths x.d (-k), x.tod⟩

/-- `pd.period_range(start, end, freq="M")`: every year-month from the
month of `start` to the month of `end`, inclusive, in order. -/
def periodRangeM (a b : DT) : List YM :=
  (List.range (ymIdx b.d.ym - ymIdx a.d.ym + 1).toNat).map
    (fun i => ymAdd a.d.ym (Int.ofNat i))

/-- Window filter of the trend block: the row timestamp lies between
`now - 12 months` and `now`; a NaT date compares false. -/
def trendWindowFilter (now : DT) (t : Tx) : Bool :=
  match t.data with
  | some d => dtLe (dtSubMonths now 12) (dtOfDate d) &&
              dtLe (dtOfDate d) now
  | none => false

/-- Shallow embedding of the monthly-trend computation: `none` models the
two early exits that only render an info message (empty dataframe, or no
transaction in the window); otherwise the pivot summed by year-month and
type, reindexed over `period_range(start, now)` with missing months filled
with zero, and the balance column. -/
def monthlyTrend (txs : List Tx) (now : DT) :
    Option (List (YM × Rat × Rat × Rat)) :=
  if txs.isEmpty then none
  else
    let start := dtSubMonths now 12
    let filtered := txs.filter (trendWindowFilter now)
    if filtered.isEmpty then none
    else some ((periodRangeM start now).map (fun ym =>
      let inc := sumValor (filtered.filter (fun t =>
        t.data.map Date.ym == some ym && t.tipo == "receita"))
      let exp := sumValor (filtered.filter (fun t =>
        t.data.map Date.ym == some ym && t.tipo == "despesa"))
      (ym, inc, exp, inc - exp)))

lemma ymIdx_ymOfIdx (n : Int) : ymIdx (ymOfIdx n) = n := by
  simp only [ymIdx, ymOfIdx]
  omega

lemma ymIdx_ymAdd (p : YM) (k : Int) : ymIdx (ymAdd p k) = ymIdx p + k := by
  simp [ymAdd, ymIdx_ymOfIdx]

lemma ym_dateAddMonths (d : Date) (k : Int) :
    (dateAddMonths d k).ym = ymAdd d.ym k := rfl

lemma periodRangeM_sub12_length (now : DT) :
    (periodRangeM (dtSubMonths now 12) now).length = 13 := by
  simp only [periodRangeM, dtSubMonths, List.length_map, List.length_range,
    ym_dateAddMonths, ymIdx_ymAdd]
  omega

/-- C5 (amended). Whenever the trend block produces a series it has exactly
13 entries — one for each month from `now - 12 months` to the current
month, inclusive, in order — each entry's balance is its income minus its
expense, and a month of the window with no transaction is zero-filled; for
an empty transaction list (or a list with no transaction in the window) no
series is produced at all. -/
theorem monthlyTrend_window_amended (txs : List Tx) (now : DT)
    (es : List (YM × Rat × Rat × Rat))
    (h : monthlyTrend txs now = some es) :
    es.length = 13 ∧
    es.map (fun e => e.1) = periodRangeM (dtSubMonths now 12) now ∧
    (∀ e ∈ es, e.2.2.2 = e.2.1 - e.2.2.1) ∧
    (∀ e ∈ es, (∀ t ∈ txs, ¬(trendWindowFilter now t = true ∧
        t.data.map Date.ym = some e.1)) → e.2.1 = 0 ∧ e.2.2.1 = 0) := by
  by_cases h1 : txs.isEmpty
  · simp [monthlyTrend, h1] at h
  · by_cases h2 : (txs.filter (trendWindowFilter now)).isEmpty
    · simp [monthlyTrend, h1, h2] at h
    · simp only [monthlyTrend, h1, h2, Bool.false_eq_true, if_false,
        Option.some.injEq] at h
      subst h
      refine ⟨?_, ?_, ?_, ?_⟩
      · rw [List.length_map]
        exact periodRangeM_sub12_length now
      · rw [List.map_map]
        exact List.map_id'' (fun x => rfl) _
      · intro e he
        obtain ⟨ym, _, hee⟩ := List.mem_map.mp he
        rw [← hee]
      · intro e he hnone
        obtain ⟨ym, _, hee⟩ := List.mem_map.mp he
        have hym : e.1 = ym := by rw [← hee]
        subst hym
        have hfil : ∀ t ∈ txs.filter (trendWindowFilter now),
            (t.data.map Date.ym == some e.1 && t.tipo == "receita") = false ∧
            (t.data.map Date.ym == some e.1 && t.tipo == "despesa") = false := by
          intro t ht
          obtain ⟨htx, hw⟩ := List.mem_filter.mp ht
          have := hnone t htx
          have hne : ¬(t.data.map Date.ym = some e.1) := fun hc =>
            this ⟨hw, hc⟩
          constructor <;>
            simp [beq_eq_false_iff_ne, hne]
        constructor
        · have : e.2.1 = sumValor ((txs.filter (trendWindowFilter now)).filter
              (fun t => t.data.map Date.ym == some e.1 &&
                t.tipo == "receita")) := by
            rw [← hee]
          rw [this]
          exact sumValor_of_all_not _ _ (fun t ht => (hfil t ht).1)
        · have : e.2.2.1 = sumValor ((txs.filter (trendWindowFilter now)).filter
              (fun t => t.data.map Date.ym == some e.1 &&
                t.tipo == "despesa")) := by
            rw [← hee]
          rw [this]
          exact sumValor_of_all_not _ _ (fun t ht => (hfil t ht).2)

/-- Counterexample for C5: with now = 2024-06-15 12:00:00, a single income
transaction dated 2024-06-01 yields a trend series of 13 month entries
(2023-06 through 2024-06), not 12; and the empty transaction list yields no
series at all instead of 12 zero-filled entries. -/
theorem monthlyTrend_thirteen_entries_cex :
    (monthlyTrend
        [mkReceita ⟨2024,6,1⟩ 100 "Salário" "u" "b" "Parcela Única"
          .emptyCell] ⟨⟨2024,6,15⟩, 43200⟩).map List.length = some 13 ∧
    monthlyTrend [] ⟨⟨2024,6,15⟩, 43200⟩ = none := by
  constructor <;> rfl

/-- Witness for C5 amended theorem: the series produced for a single
June 2024 income with now = 2024-06-15 12:00:00 has 13 entries keyed by the
months 2023-06 through 2024-06. -/
theorem monthlyTrend_window_amended_witness :
    ((monthlyTrend
        [mkReceita ⟨2024,6,2⟩ 100 "Salário" "u" "b" "Parcela Única"
          .emptyCell] ⟨⟨2024,6,15⟩, 43200⟩).getD []).length = 13 ∧
    ((monthlyTrend
        [mkReceita ⟨2024,6,2⟩ 100 "Salário" "u" "b" "Parcela Única"
          .emptyCell] ⟨⟨2024,6,15⟩, 43200⟩).getD []).map (fun e => e.1) =
      periodRangeM (dtSubMonths ⟨⟨2024,6,15⟩, 43200⟩ 12)
        ⟨⟨2024,6,15⟩, 43200⟩ := by
  have h := monthlyTrend_window_amended
    [mkReceita ⟨2024,6,2⟩ 100 "Salário" "u" "b" "Parcela Única" .emptyCell]
    ⟨⟨2024,6,15⟩, 43200⟩
    ((monthlyTrend
        [mkReceita ⟨2024,6,2⟩ 100 "Salário" "u" "b" "Parcela Única"
          .emptyCell] ⟨⟨2024,6,15⟩, 43200⟩).getD []) rfl
  exact ⟨h.1, h.2.1⟩

/-! Cash-flow projection (`render_detailed_analysis_section` lines
959-1003). The bucket dictionary holds the current month and the next
three; amounts accumulate as floats, so a NaN amount poisons its bucket
(modelled with `Option Rat` and an absorbing `none`). The loop body is
not exception-safe: `row["Data"].date()` / `.strftime` raise on a NaT
date, `json.loads` raises on a malformed installment cell, and line 1000
evaluates `pd.DateOffset(months=i).date()`, an attribute that does not
exist, so every recurring expense with `Vezes Recorrencia > 1` raises an
`AttributeError`. -/

/-- Abnormal terminations of the projection loop. -/
inductive ProjErr where
  | natDate
  | badParcelJson
  | dateOffsetNoDate
deriving DecidableEq, Repr

/-- Projection buckets: year-month key, income sum, expense sum (in
insertion order; `none` is a NaN sum). -/
abbrev Buckets := List (YM × Option Rat × Option Rat)

/-- The four bucket keys: the months of `today + i months` for i in 0..3. -/
def projKeys (today : Date) : List YM :=
  (List.range 4).map (fun i => ymAdd today.ym (Int.ofNat i))

/-- Zero-initialised buckets. -/
def initBuckets (today : Date) : Buckets :=
  (projKeys today).map (fun k => (k, some 0, some 0))

/-- Dictionary membership test `key in projection_data`. -/
def bucketsContain (b : Buckets) (k : YM) : Bool := b.any (fun e => e.1 == k)

/-- Float addition with NaN propagation. -/
def addO (x v : Option Rat) : Option Rat :=
  match x, v with
  | some a, some c => some (a + c)
  | _, _ => none

/-- `projection_data[k]["Receitas"] += v`. -/
def addIncomeAt (k : YM) (v : Option Rat) (b : Buckets) : Buckets :=
  b.map (fun e => if e.1 == k then (e.1, addO e.2.1 v, e.2.2) else e)

/-- `projection_data[k]["Despesas"] += v`. -/
def addExpenseAt (k : YM) (v : Option Rat) (b : Buckets) : Buckets :=
  b.map (fun e => if e.1 == k then (e.1, e.2.1, addO e.2.2 v) else e)

/-- The installment loop: for each parcel date whose month is a bucket key
and which lies strictly after today, add `Valor / len(parcel_dates)` to
that month's income. -/
def parcelFold (today : Date) (v0 : Option Rat) (ps : List Date)
    (b : Buckets) : Buckets :=
  ps.foldl (fun acc p =>
    if bucketsContain acc p.ym && dateLt today p then
      addIncomeAt p.ym v0 acc
    else acc) b

/-- Income added to the bucket of the transaction's own month when that
month is a bucket key (line 976-977). -/
def receitaOwn (b : Buckets) (d : Date) (v : Option Rat) : Buckets :=
  if bucketsContain b d.ym then addIncomeAt d.ym v b else b

/-- Expense added to the bucket of the transaction's own month: always for
"A Pagar", only from the first day of the current month on for "Pago"
(lines 992-995). -/
def despesaOwn (today : Date) (b : Buckets) (d : Date)
    (status : String) (v : Option Rat) : Buckets :=
  if status == "A Pagar" && bucketsContain b d.ym then
    addExpenseAt d.ym v b
  else if status == "Pago" && dateLe ⟨today.year, today.month, 1⟩ d &&
      bucketsContain b d.ym then
    addExpenseAt d.ym v b
  else b

/-- The projection loop body for one row (the abnormal branches carry no
buckets, so computing the own-month update before or after the recurrence
check is unobservable, as in the source where the raised exception discards
the dictionary). -/
def processTx (today : Date) (b : Buckets) (t : Tx) :
    Except ProjErr Buckets :=
  match t.data with
  | none => .error .natDate
  | some d =>
    if t.tipo == "receita" then
      if t.formaRecebimento != "Parcela Única" &&
         t.formaRecebimento != "Mais de 6x" then
        match t.datasParcelasReceita with
        | .emptyCell => .ok (receitaOwn b d t.valor)
        | .badJson => .error .badParcelJson
        | .dates ps =>
            .ok (parcelFold today
              (t.valor.map (fun v => v / (ps.length : Rat))) ps
              (receitaOwn b d t.valor))
      else .ok (receitaOwn b d t.valor)
    else if t.tipo == "despesa" then
      if t.recorrente == "Sim" && t.vezesRecorrencia > 1 then
        .error .dateOffsetNoDate
      else .ok (despesaOwn today b d t.status t.valor)
    else .ok b

/-- The whole projection over the transaction dataframe. -/
def cashFlowProjection (today : Date) (txs : List Tx) :
    Except ProjErr Buckets :=
  txs.foldlM (processTx today) (initBuckets today)

/-- The income sum of the bucket keyed `k` (`none` when `k` is not a key or
when the sum is NaN). -/
def incomeAt (b : Buckets) (k : YM) : Option Rat :=
  (b.find? (fun e => e.1 == k)).bind (fun e => e.2.1)

/-- The expense sum of the bucket keyed `k`. -/
def expenseAt (b : Buckets) (k : YM) : Option Rat :=
  (b.find? (fun e => e.1 == k)).bind (fun e => e.2.2)

/-- C2. Scenario D of the spec: a paid expense of 100 dated 2024-01-10,
recurring 3 times, with today = 2024-01-20, makes the projection raise the
`AttributeError` of `pd.DateOffset(months=i).date()` on line 1000 instead
of adding 100 to the 2024-02 and 2024-03 buckets. -/
theorem cashFlowProjection_recurring_raises :
    cashFlowProjection ⟨2024,1,20⟩
        [mkDespesa ⟨2024,1,10⟩ 100 "Contas Fixas" "Sim" 3 "Pago"] =
      .error .dateOffsetNoDate := by
  rfl

/-- Transaction row with an unparseable date cell (NaT after
`to_datetime(..., errors="coerce")`), used for C3. -/
def badDateTx : Tx :=
  { data := none, valor := some 10, tipo := "despesa",
    categoria := some "Lazer", responsavel := some "", banco := some "",
    formaRecebimento := "", datasParcelasReceita := .emptyCell,
    recorrente := "Não", vezesRecorrencia := 0, status := "Pago" }

/-- Counterexample for C3: on a list holding one row whose date cell is
unparseable the projection raises (`row["Data"].date()` / `.strftime` on
NaT) instead of returning a result with the malformed row excluded. -/
theorem cashFlowProjection_not_total_cex :
    cashFlowProjection ⟨2024,1,20⟩ [badDateTx] = .error .natDate := by
  rfl

/-- C3 (amended). The monthly summary and the monthly trend are total and
simply exclude a row with an unparseable date from every sum, but the
cash-flow projection is not total: a row with an unparseable date makes it
raise at once (and a malformed installment cell or a recurring expense with
`Vezes Recorrencia > 1` likewise raises, see the other projection
theorems). -/
theorem aggregation_totality_amended (txs : List Tx) (cur : YM) (now : DT)
    (today : Date) (bad : Tx) (hbad : bad.data = none) :
    getSummaryCurrentMonth (bad :: txs) cur =
      getSummaryCurrentMonth txs cur ∧
    monthlyTrend (bad :: txs) now = monthlyTrend txs now ∧
    cashFlowProjection today (bad :: txs) = .error .natDate := by
  have hbadIn : inMonth cur bad = false := by simp [inMonth, hbad]
  have hbadW : trendWindowFilter now bad = false := by
    simp [trendWindowFilter, hbad]
  refine ⟨?_, ?_, ?_⟩
  · unfold getSummaryCurrentMonth
    by_cases hts : txs.isEmpty
    · have : txs = [] := List.isEmpty_iff.mp hts
      subst this
      simp [List.filter_cons, hbadIn, sumValor_nil]
    · simp only [Bool.not_eq_true] at hts
      simp only [List.isEmpty_cons, hts, Bool.false_eq_true, if_false]
      rw [show (bad :: txs).filter (inMonth cur) =
            txs.filter (inMonth cur) by simp [List.filter_cons, hbadIn]]
  · unfold monthlyTrend
    by_cases hts : txs.isEmpty
    · have : txs = [] := List.isEmpty_iff.mp hts
      subst this
      simp [List.filter_cons, hbadW]
    · simp only [Bool.not_eq_true] at hts
      simp only [List.isEmpty_cons, hts, Bool.false_eq_true, if_false]
      rw [show (bad :: txs).filter (trendWindowFilter now) =
            txs.filter (trendWindowFilter now) by
          simp [List.filter_cons, hbadW]]
  · have hstep : processTx today (initBuckets today) bad =
        .error .natDate := by
      unfold processTx
      rw [hbad]
    simp only [cashFlowProjection, List.foldlM_cons, hstep]
    rfl

/-- Witness for C3 amended theorem: with a concrete malformed-date row in
front of a valid expense, summary and trend agree with the list without the
row, and the projection errors. -/
theorem aggregation_totality_amended_witness :
    getSummaryCurrentMonth
        [badDateTx, mkDespesa ⟨2024,1,5⟩ 30 "Lazer" "Não" 0 "Pago"]
        (2024, 1) =
      getSummaryCurrentMonth
        [mkDespesa ⟨2024,1,5⟩ 30 "Lazer" "Não" 0 "Pago"] (2024, 1) ∧
    monthlyTrend
        [badDateTx, mkDespesa ⟨2024,1,5⟩ 30 "Lazer" "Não" 0 "Pago"]
        ⟨⟨2024,6,15⟩, 43200⟩ =
      monthlyTrend [mkDespesa ⟨2024,1,5⟩ 30 "Lazer" "Não" 0 "Pago"]
        ⟨⟨2024,6,15⟩, 43200⟩ ∧
    cashFlowProjection ⟨2024,1,20⟩
        [badDateTx, mkDespesa ⟨2024,1,5⟩ 30 "Lazer" "Não" 0 "Pago"] =
      .error .natDate :=
  aggregation_totality_amended
    [mkDespesa ⟨2024,1,5⟩ 30 "Lazer" "Não" 0 "Pago"] (2024, 1)
    ⟨⟨2024,6,15⟩, 43200⟩ ⟨2024,1,20⟩ badDateTx rfl


lemma keys_addIncomeAt (k : YM) (v : Option Rat) (b : Buckets) :
    (addIncomeAt k v b).map Prod.fst = b.map Prod.fst := by
  induction b with
  | nil => rfl
  | cons e es ih =>
    by_cases he : e.1 == k <;>
      simp only [addIncomeAt, List.map_cons, he, if_true, if_false] at ih ⊢ <;>
      rw [← ih] <;> rfl

lemma keys_addExpenseAt (k : YM) (v : Option Rat) (b : Buckets) :
    (addExpenseAt k v b).map Prod.fst = b.map Prod.fst := by
  induction b with
  | nil => rfl
  | cons e es ih =>
    by_cases he : e.1 == k <;>
      simp only [addExpenseAt, List.map_cons, he, if_true, if_false] at ih ⊢ <;>
      rw [← ih] <;> rfl

lemma bucketsContain_keys (b : Buckets) (k : YM) :
    bucketsContain b k = (b.map Prod.fst).any (fun x => x == k) := by
  induction b with
  | nil => rfl
  | cons e es ih =>
    simp only [bucketsContain, List.any_cons, List.map_cons] at ih ⊢
    rw [ih]

lemma bucketsContain_congr (b b2 : Buckets) (k : YM)
    (h : b2.map Prod.fst = b.map Prod.fst) :
    bucketsContain b2 k = bucketsContain b k := by
  rw [bucketsContain_keys, bucketsContain_keys, h]

lemma keys_parcelFold (today : Date) (v0 : Option Rat) (ps : List Date)
    (b : Buckets) :
    (parcelFold today v0 ps b).map Prod.fst = b.map Prod.fst := by
  induction ps generalizing b with
  | nil => rfl
  | cons p ps ih =>
    show (parcelFold today v0 ps
      (if bucketsContain b p.ym && dateLt today p then
        addIncomeAt p.ym v0 b else b)).map Prod.fst = b.map Prod.fst
    rw [ih]
    by_cases hc : bucketsContain b p.ym && dateLt today p
    · simp only [hc, if_true]
      exact keys_addIncomeAt _ _ _
    · simp [hc]

lemma addO_none_left (v : Option Rat) : addO none v = none := by
  cases v <;> rfl

lemma incomeAt_cons (e : YM × Option Rat × Option Rat) (es : Buckets)
    (k1 : YM) :
    incomeAt (e :: es) k1 =
      if e.1 == k1 then e.2.1 else incomeAt es k1 := by
  cases he : (e.1 == k1) <;> simp [incomeAt, List.find?_cons, he]

lemma expenseAt_cons (e : YM × Option Rat × Option Rat) (es : Buckets)
    (k1 : YM) :
    expenseAt (e :: es) k1 =
      if e.1 == k1 then e.2.2 else expenseAt es k1 := by
  cases he : (e.1 == k1) <;> simp [expenseAt, List.find?_cons, he]

lemma addIncomeAt_cons (k : YM) (v : Option Rat)
    (e : YM × Option Rat × Option Rat) (es : Buckets) :
    addIncomeAt k v (e :: es) =
      (if e.1 == k then (e.1, addO e.2.1 v, e.2.2) else e) ::
        addIncomeAt k v es := rfl

lemma incomeAt_addIncomeAt (k k1 : YM) (v : Option Rat) (b : Buckets) :
    incomeAt (addIncomeAt k v b) k1 =
      if k1 = k then addO (incomeAt b k1) v else incomeAt b k1 := by
  induction b with
  | nil =>
    by_cases hk : k1 = k <;>
      simp [incomeAt, addIncomeAt, hk, addO_none_left]
  | cons e es ih =>
    rw [addIncomeAt_cons]
    by_cases hek1 : (e.1 == k1) = true
    · have hek1e : e.1 = k1 := by simpa using hek1
      by_cases hek : (e.1 == k) = true
      · have heke : e.1 = k := by simpa using hek
        have hkk1 : k1 = k := by rw [← hek1e, heke]
        rw [if_pos hek]
        rw [incomeAt_cons, incomeAt_cons]
        simp [hek1, hkk1, heke]
      · have hkk1 : ¬ k1 = k := by
          intro hc
          exact hek (by simp [hek1e, hc])
        rw [if_neg hek]
        rw [incomeAt_cons, incomeAt_cons]
        simp [hek1, hkk1]
    · rw [incomeAt_cons]
      have h1 : ((if e.1 == k then (e.1, addO e.2.1 v, e.2.2) else e).1 == k1)
          = false := by
        by_cases hek : (e.1 == k) = true <;> simp [hek] <;>
          simpa using hek1
      rw [h1]
      simp only [Bool.false_eq_true, if_false]
      rw [ih]
      simp [incomeAt_cons, hek1]

lemma expenseAt_addIncomeAt (k k1 : YM) (v : Option Rat) (b : Buckets) :
    expenseAt (addIncomeAt k v b) k1 = expenseAt b k1 := by
  induction b with
  | nil => rfl
  | cons e es ih =>
    cases hek : (e.1 == k) <;> cases h1 : (e.1 == k1) <;>
      simp [addIncomeAt_cons, expenseAt_cons, hek, h1, ih]

lemma bucketsContain_cons (e : YM × Option Rat × Option Rat) (es : Buckets)
    (k : YM) :
    bucketsContain (e :: es) k = ((e.1 == k) || bucketsContain es k) := rfl

lemma contains_of_incomeAt_some (b : Buckets) (k : YM) (x : Rat)
    (h : incomeAt b k = some x) : bucketsContain b k = true := by
  induction b with
  | nil => simp [incomeAt] at h
  | cons e es ih =>
    rw [incomeAt_cons] at h
    cases he : (e.1 == k)
    · rw [he] at h
      simp only [Bool.false_eq_true, if_false] at h
      rw [bucketsContain_cons, he, ih h]
      rfl
    · rw [bucketsContain_cons, he]
      rfl

lemma incomeAt_parcelFold (today : Date) (w : Rat) (ps : List Date)
    (b : Buckets) (k : YM) (x : Rat) (hx : incomeAt b k = some x) :
    incomeAt (parcelFold today (some w) ps b) k =
      some (x + w *
        ((ps.filter (fun p => p.ym == k && dateLt today p)).length : Rat)) := by
  induction ps generalizing b x with
  | nil =>
    show incomeAt b k = _
    rw [hx]
    norm_num
  | cons p ps ih =>
    show incomeAt (parcelFold today (some w) ps
      (if bucketsContain b p.ym && dateLt today p then
        addIncomeAt p.ym (some w) b else b)) k = _
    cases hpk : (p.ym == k)
    · have hne : ¬ k = p.ym := by
        intro hc
        rw [hc] at hpk
        simp at hpk
      cases hcd : (bucketsContain b p.ym && dateLt today p)
      · simp only [Bool.false_eq_true, if_false]
        rw [ih b x hx]
        simp [List.filter_cons, hpk]
      · rw [if_pos rfl]
        have hx2 : incomeAt (addIncomeAt p.ym (some w) b) k = some x := by
          rw [incomeAt_addIncomeAt, if_neg hne, hx]
        rw [ih _ _ hx2]
        simp [List.filter_cons, hpk]
    · have hpke : p.ym = k := by simpa using hpk
      have hcont : bucketsContain b p.ym = true := by
        rw [hpke]
        exact contains_of_incomeAt_some b k x hx
      cases hlt : dateLt today p
      · simp only [Bool.and_false, Bool.false_eq_true, if_false]
        rw [ih b x hx]
        simp [List.filter_cons, hpk, hlt]
      · simp only [Bool.and_true]
        rw [if_pos hcont]
        have hx2 : incomeAt (addIncomeAt p.ym (some w) b) k =
            some (x + w) := by
          rw [incomeAt_addIncomeAt, if_pos hpke.symm, hx]
          rfl
        rw [ih _ _ hx2]
        have hcnt : (List.filter (fun p2 => p2.ym == k && dateLt today p2)
            (p :: ps)).length =
            (List.filter (fun p2 => p2.ym == k && dateLt today p2) ps).length
              + 1 := by
          simp [List.filter_cons, hpk, hlt]
        rw [hcnt]
        congr 1
        push_cast
        ring

lemma expenseAt_parcelFold (today : Date) (v0 : Option Rat) (ps : List Date)
    (b : Buckets) (k : YM) :
    expenseAt (parcelFold today v0 ps b) k = expenseAt b k := by
  induction ps generalizing b with
  | nil => rfl
  | cons p ps ih =>
    show expenseAt (parcelFold today v0 ps
      (if bucketsContain b p.ym && dateLt today p then
        addIncomeAt p.ym v0 b else b)) k = _
    rw [ih]
    cases hc : (bucketsContain b p.ym && dateLt today p)
    · simp only [Bool.false_eq_true, if_false]
    · rw [if_pos rfl]
      exact expenseAt_addIncomeAt _ _ _ _

lemma keys_receitaOwn (b : Buckets) (d : Date) (v : Option Rat) :
    (receitaOwn b d v).map Prod.fst = b.map Prod.fst := by
  unfold receitaOwn
  cases hc : bucketsContain b d.ym
  · simp only [Bool.false_eq_true, if_false]
  · rw [if_pos rfl]
    exact keys_addIncomeAt _ _ _

lemma keys_despesaOwn (today : Date) (b : Buckets) (d : Date)
    (status : String) (v : Option Rat) :
    (despesaOwn today b d status v).map Prod.fst = b.map Prod.fst := by
  unfold despesaOwn
  cases h1 : (status == "A Pagar" && bucketsContain b d.ym)
  · simp only [Bool.false_eq_true, if_false]
    cases h2 : (status == "Pago" && dateLe ⟨today.year, today.month, 1⟩ d &&
        bucketsContain b d.ym)
    · simp only [Bool.false_eq_true, if_false]
    · rw [if_pos rfl]
      exact keys_addExpenseAt _ _ _
  · rw [if_pos rfl]
    exact keys_addExpenseAt _ _ _

lemma processTx_some (today : Date) (b : Buckets) (t : Tx) (d : Date)
    (hd : t.data = some d) :
    processTx today b t =
      (if t.tipo == "receita" then
        if t.formaRecebimento != "Parcela Única" &&
           t.formaRecebimento != "Mais de 6x" then
          match t.datasParcelasReceita with
          | .emptyCell => .ok (receitaOwn b d t.valor)
          | .badJson => .error .badParcelJson
          | .dates ps =>
              .ok (parcelFold today
                (t.valor.map (fun v => v / (ps.length : Rat))) ps
                (receitaOwn b d t.valor))
        else .ok (receitaOwn b d t.valor)
      else if t.tipo == "despesa" then
        if t.recorrente == "Sim" && t.vezesRecorrencia > 1 then
          .error .dateOffsetNoDate
        else .ok (despesaOwn today b d t.status t.valor)
      else .ok b) := by
  unfold processTx
  rw [hd]

lemma keys_processTx (today : Date) (b b2 : Buckets) (t : Tx)
    (h : processTx today b t = .ok b2) :
    b2.map Prod.fst = b.map Prod.fst := by
  cases hdat : t.data with
  | none =>
    unfold processTx at h
    rw [hdat] at h
    simp at h
  | some d =>
    rw [processTx_some today b t d hdat] at h
    by_cases ht : (t.tipo == "receita") = true
    · rw [if_pos ht] at h
      by_cases hf : ((t.formaRecebimento != "Parcela Única") &&
          (t.formaRecebimento != "Mais de 6x")) = true
      · rw [if_pos hf] at h
        cases hps : t.datasParcelasReceita with
        | emptyCell =>
          rw [hps] at h
          rw [← Except.ok.inj h]
          exact keys_receitaOwn _ _ _
        | badJson =>
          rw [hps] at h
          simp at h
        | dates ps =>
          rw [hps] at h
          rw [← Except.ok.inj h, keys_parcelFold]
          exact keys_receitaOwn _ _ _
      · rw [if_neg hf] at h
        rw [← Except.ok.inj h]
        exact keys_receitaOwn _ _ _
    · rw [if_neg ht] at h
      by_cases ht2 : (t.tipo == "despesa") = true
      · rw [if_pos ht2] at h
        by_cases hr : ((t.recorrente == "Sim") &&
            decide (t.vezesRecorrencia > 1)) = true
        · rw [if_pos hr] at h
          simp at h
        · rw [if_neg hr] at h
          rw [← Except.ok.inj h]
          exact keys_despesaOwn _ _ _ _ _
      · rw [if_neg ht2] at h
        rw [← Except.ok.inj h]

lemma keys_foldlM (today : Date) (txs : List Tx) (b B : Buckets)
    (h : txs.foldlM (processTx today) b = .ok B) :
    B.map Prod.fst = b.map Prod.fst := by
  induction txs generalizing b with
  | nil =>
    rw [List.foldlM_nil] at h
    rw [← Except.ok.inj h]
  | cons t ts ih =>
    rw [List.foldlM_cons] at h
    cases hstep : processTx today b t with
    | error e =>
      rw [hstep] at h
      exact absurd
        (show (Except.error e : Except ProjErr Buckets) = .ok B from h)
        (by simp)
    | ok bmid =>
      rw [hstep] at h
      have h2 : ts.foldlM (processTx today) bmid = .ok B := h
      exact (ih bmid h2).trans (keys_processTx today b bmid t hstep)

lemma contains_cashFlowProjection (today : Date) (L : List Tx) (B : Buckets)
    (h : cashFlowProjection today L = .ok B) (k : YM)
    (hk : k ∈ projKeys today) :
    bucketsContain B k = true := by
  have hkeys : B.map Prod.fst = (initBuckets today).map Prod.fst :=
    keys_foldlM today L (initBuckets today) B h
  rw [bucketsContain_congr (initBuckets today) B k hkeys]
  rw [bucketsContain_keys]
  have hinit : (initBuckets today).map Prod.fst = projKeys today := by
    unfold initBuckets
    rw [List.map_map]
    exact List.map_id'' (fun x => rfl) _
  rw [hinit]
  exact List.any_eq_true.mpr ⟨k, hk, by simp⟩

/-- C1. For every transaction list whose projection succeeds and every
income transaction in installments (payment plan neither "Parcela Única"
nor "Mais de 6x", with a parsed list of installment dates), appending the
transaction to the list adds, in every projection bucket `k`: the full
amount once when the transaction's own month is `k` (own-month rule), plus
`amount / n` once per installment date of month `k` lying strictly after
today, where `n` is the number of installment dates — additively on top of
the bucket's previous income, with the expense side untouched. -/
theorem cashFlowProjection_installment_contribution
    (today d : Date) (L : List Tx) (B : Buckets) (t : Tx) (v x : Rat)
    (ps : List Date) (k : YM)
    (hL : cashFlowProjection today L = .ok B)
    (ht : t.tipo = "receita") (hd : t.data = some d) (hv : t.valor = some v)
    (hf1 : t.formaRecebimento ≠ "Parcela Única")
    (hf2 : t.formaRecebimento ≠ "Mais de 6x")
    (hps : t.datasParcelasReceita = .dates ps)
    (hk : k ∈ projKeys today)
    (hx : incomeAt B k = some x) :
    ∃ B2, cashFlowProjection today (L ++ [t]) = .ok B2 ∧
      incomeAt B2 k =
        some (x + (if d.ym = k then v else 0) +
          (v / (ps.length : Rat)) *
            ((ps.filter (fun p => p.ym == k && dateLt today p)).length
              : Rat)) ∧
      expenseAt B2 k = expenseAt B k := by
  have happ : cashFlowProjection today (L ++ [t]) = processTx today B t := by
    unfold cashFlowProjection at hL ⊢
    rw [List.foldlM_append, hL]
    show [t].foldlM (processTx today) B = _
    simp only [List.foldlM_cons, List.foldlM_nil, bind_pure]
  have hfb : ((t.formaRecebimento != "Parcela Única") &&
      (t.formaRecebimento != "Mais de 6x")) = true := by
    simp [bne_iff_ne, hf1, hf2]
  have hcomp : processTx today B t =
      .ok (parcelFold today (some (v / (ps.length : Rat))) ps
        (receitaOwn B d (some v))) := by
    rw [processTx_some today B t d hd]
    rw [ht]
    rw [if_pos (by simp : (("receita" : String) == "receita") = true)]
    rw [if_pos hfb, hps, hv]
    rfl
  have hx1 : incomeAt (receitaOwn B d (some v)) k =
      some (x + (if d.ym = k then v else 0)) := by
    unfold receitaOwn
    by_cases hdk : d.ym = k
    · have hcont : bucketsContain B d.ym = true := by
        rw [hdk]
        exact contains_cashFlowProjection today L B hL k hk
      rw [if_pos hcont, incomeAt_addIncomeAt, if_pos hdk.symm, hx,
        if_pos hdk]
      rfl
    · rw [if_neg hdk]
      by_cases hcont : bucketsContain B d.ym = true
      · rw [if_pos hcont, incomeAt_addIncomeAt,
          if_neg (fun hc => hdk hc.symm), hx]
        norm_num
      · rw [if_neg hcont, hx]
        norm_num
  refine ⟨parcelFold today (some (v / (ps.length : Rat))) ps
    (receitaOwn B d (some v)), by rw [happ, hcomp], ?_, ?_⟩
  · rw [incomeAt_parcelFold today (v / (ps.length : Rat)) ps
      (receitaOwn B d (some v)) k (x + (if d.ym = k then v else 0)) hx1]
  · rw [expenseAt_parcelFold]
    unfold receitaOwn
    by_cases hcont : bucketsContain B d.ym = true
    · rw [if_pos hcont, expenseAt_addIncomeAt]
    · rw [if_neg hcont]

/-- Projection result, or a default for the raising case. -/
def okOr (x : Except ProjErr Buckets) (dflt : Buckets) : Buckets :=
  match x with
  | .ok b => b
  | .error _ => dflt

/-- Scenario C income: 300 in 3 installments dated 2024-02-01, 2024-03-01
and 2024-04-01, transaction date 2024-01-15. -/
def scenCIncome : Tx :=
  mkReceita ⟨2024,1,15⟩ 300 "Venda de Produto" "ana" "Nubank" "3x"
    (.dates [⟨2024,2,1⟩, ⟨2024,3,1⟩, ⟨2024,4,1⟩])

/-- Witness for C1: Scenario C with today = 2024-01-20 — the 2024-01 bucket
receives the full 300 and the 2024-02, 2024-03 and 2024-04 buckets receive
100 = 300/3 each. -/
theorem cashFlowProjection_installment_contribution_witness :
    incomeAt (okOr (cashFlowProjection ⟨2024,1,20⟩ ([] ++ [scenCIncome])) [])
      (2024, 1) = some 300 ∧
    incomeAt (okOr (cashFlowProjection ⟨2024,1,20⟩ ([] ++ [scenCIncome])) [])
      (2024, 2) = some 100 ∧
    incomeAt (okOr (cashFlowProjection ⟨2024,1,20⟩ ([] ++ [scenCIncome])) [])
      (2024, 3) = some 100 ∧
    incomeAt (okOr (cashFlowProjection ⟨2024,1,20⟩ ([] ++ [scenCIncome])) [])
      (2024, 4) = some 100 := by
  refine ⟨?_, ?_, ?_, ?_⟩
  · obtain ⟨B2, hB2, hInc, _⟩ := cashFlowProjection_installment_contribution
      ⟨2024,1,20⟩ ⟨2024,1,15⟩ [] (initBuckets ⟨2024,1,20⟩) scenCIncome
      300 0 [⟨2024,2,1⟩, ⟨2024,3,1⟩, ⟨2024,4,1⟩] (2024, 1)
      rfl rfl rfl rfl (by decide) (by decide) rfl (by decide) (by decide)
    have hok : okOr (cashFlowProjection ⟨2024,1,20⟩ ([] ++ [scenCIncome])) []
        = B2 := by
      rw [hB2]
      rfl
    rw [hok, hInc]
    norm_num +decide [Date.ym, List.filter_cons]
  · obtain ⟨B2, hB2, hInc, _⟩ := cashFlowProjection_installment_contribution
      ⟨2024,1,20⟩ ⟨2024,1,15⟩ [] (initBuckets ⟨2024,1,20⟩) scenCIncome
      300 0 [⟨2024,2,1⟩, ⟨2024,3,1⟩, ⟨2024,4,1⟩] (2024, 2)
      rfl rfl rfl rfl (by decide) (by decide) rfl (by decide) (by decide)
    have hok : okOr (cashFlowProjection ⟨2024,1,20⟩ ([] ++ [scenCIncome])) []
        = B2 := by
      rw [hB2]
      rfl
    rw [hok, hInc]
    norm_num +decide [Date.ym, List.filter_cons]
  · obtain ⟨B2, hB2, hInc, _⟩ := cashFlowProjection_installment_contribution
      ⟨2024,1,20⟩ ⟨2024,1,15⟩ [] (initBuckets ⟨2024,1,20⟩) scenCIncome
      300 0 [⟨2024,2,1⟩, ⟨2024,3,1⟩, ⟨2024,4,1⟩] (2024, 3)
      rfl rfl rfl rfl (by decide) (by decide) rfl (by decide) (by decide)
    have hok : okOr (cashFlowProjection ⟨2024,1,20⟩ ([] ++ [scenCIncome])) []
        = B2 := by
      rw [hB2]
      rfl
    rw [hok, hInc]
    norm_num +decide [Date.ym, List.filter_cons]
  · obtain ⟨B2, hB2, hInc, _⟩ := cashFlowProjection_installment_contribution
      ⟨2024,1,20⟩ ⟨2024,1,15⟩ [] (initBuckets ⟨2024,1,20⟩) scenCIncome
      300 0 [⟨2024,2,1⟩, ⟨2024,3,1⟩, ⟨2024,4,1⟩] (2024, 4)
      rfl rfl rfl rfl (by decide) (by decide) rfl (by decide) (by decide)
    have hok : okOr (cashFlowProjection ⟨2024,1,20⟩ ([] ++ [scenCIncome])) []
        = B2 := by
      rw [hB2]
      rfl
    rw [hok, hInc]
    norm_num +decide [Date.ym, List.filter_cons]
